import Mathlib

/-!
Verification of `BufferWithExtendableBuffer`
(src/native/jni/src/suggest/policyimpl/dictionary/utils/buffer_with_extendable_buffer.h).

The class keeps a fixed-size original byte region and a growable additional
byte region, addressed through one logical position space.  We embed the
state as lists of bytes, positions and sizes as `Int` (C `int`), and the
three build-time size constants (declared in the header, defined elsewhere)
as an explicit configuration record.
-/

set_option autoImplicit false

namespace LatinIme

/-- Modelled from the spec: the three build-time configuration constants of
`BufferWithExtendableBuffer` — `INITIAL_ADDITIONAL_BUFFER_SIZE`,
`MAX_ADDITIONAL_BUFFER_SIZE` and `EXTEND_ADDITIONAL_BUFFER_SIZE_STEP` —
are declared in the header but defined in a translation unit outside the
sources at hand, so they are carried as parameters (`size_t` values). -/
structure Config where
  initialAdditionalBufferSize : Nat
  maxAdditionalBufferSize : Nat
  extendAdditionalBufferSizeStep : Nat
deriving DecidableEq, Repr

/-- State of a `BufferWithExtendableBuffer`.
`mOriginalBuffer` models the externally supplied region of
`mOriginalBufferSize` bytes (the size is the list length);
`mAdditionalBuffer` models the `std::vector`, whose length is its
current capacity; `mUsedAdditionalBufferSize` is the C `int` counter. -/
structure BufferWithExtendableBuffer where
  mOriginalBuffer : List Nat
  mAdditionalBuffer : List Nat
  mUsedAdditionalBufferSize : Int
deriving DecidableEq, Repr

/-- The constructor: the additional buffer is allocated zero-filled at the
initial capacity and the used counter starts at 0. -/
def mkBufferWithExtendableBuffer (cfg : Config) (originalBuffer : List Nat) :
    BufferWithExtendableBuffer :=
  { mOriginalBuffer := originalBuffer
    mAdditionalBuffer := List.replicate cfg.initialAdditionalBufferSize 0
    mUsedAdditionalBufferSize := 0 }

namespace BufferWithExtendableBuffer

/-- `getOriginalBufferSize`: the size of the original region, as a C `int`. -/
def getOriginalBufferSize (b : BufferWithExtendableBuffer) : Int :=
  (b.mOriginalBuffer.length : Int)

/-- `getTailPosition`: `mOriginalBufferSize + mUsedAdditionalBufferSize`. -/
def getTailPosition (b : BufferWithExtendableBuffer) : Int :=
  b.getOriginalBufferSize + b.mUsedAdditionalBufferSize

/-- `isInAdditionalBuffer`: `position >= mOriginalBufferSize`. -/
def isInAdditionalBuffer (b : BufferWithExtendableBuffer) (position : Int) : Bool :=
  decide (b.getOriginalBufferSize ≤ position)

/-- `extendBuffer`: refuse when `mAdditionalBuffer.size() + STEP > MAX`,
otherwise `resize` the vector up by one step (new cells value-initialised
to 0, existing content kept).  `none` models the `false` return, which in
the C++ happens before any mutation. -/
def extendBuffer (b : BufferWithExtendableBuffer) (cfg : Config) :
    Option BufferWithExtendableBuffer :=
  if b.mAdditionalBuffer.length + cfg.extendAdditionalBufferSizeStep >
      cfg.maxAdditionalBufferSize then
    none
  else
    some { b with mAdditionalBuffer :=
      b.mAdditionalBuffer ++ List.replicate cfg.extendAdditionalBufferSizeStep 0 }

/-- `checkAndPrepareWriting(pos, size)`: returns the (possibly mutated)
state on success and `none` on refusal.  Mirrors the source exactly: in the
additional-buffer branch the logical `pos` is compared against
`mUsedAdditionalBufferSize` as written in the header, with no adjustment by
`mOriginalBufferSize`. -/
def checkAndPrepareWriting (b : BufferWithExtendableBuffer) (cfg : Config)
    (pos size : Int) : Option BufferWithExtendableBuffer :=
  if b.isInAdditionalBuffer pos then
    if pos = b.mUsedAdditionalBufferSize then
      -- Append data to the tail.
      if pos + size > (b.mAdditionalBuffer.length : Int) then
        -- Need to extend buffer.
        match b.extendBuffer cfg with
        | none => none
        | some b1 =>
            some { b1 with mUsedAdditionalBufferSize :=
              b1.mUsedAdditionalBufferSize + size }
      else
        some { b with mUsedAdditionalBufferSize :=
          b.mUsedAdditionalBufferSize + size }
    else if pos + size ≥ b.mUsedAdditionalBufferSize then
      -- The access will beyond the tail of used region.
      none
    else
      some b
  else
    if pos < 0 ∨ b.getOriginalBufferSize < pos + size then
      -- Invalid position or violate the boundary.
      none
    else
      some b

end BufferWithExtendableBuffer

/-- Overwrite `bytes.length` cells of `buffer` starting at index `p`. -/
def writeBytesAt (buffer : List Nat) (p : Nat) (bytes : List Nat) : List Nat :=
  buffer.take p ++ bytes ++ buffer.drop (p + bytes.length)

/-- The `size` bytes of `data`, most significant first. -/
def uintToBytes (data size : Nat) : List Nat :=
  (List.range size).map (fun i => data / 256 ^ (size - 1 - i) % 256)

namespace ByteArrayUtils

/-- Modelled from the spec: the external collaborator
`ByteArrayUtils::writeUintAndAdvancePosition` (its source is outside the
files at hand) writes `size` bytes of `data` into `buffer` starting at the
cursor `pos`, most significant byte first, and advances the cursor by
`size`; it is assumed infallible once the caller has validated the space. -/
def writeUintAndAdvancePosition (buffer : List Nat) (data : Nat) (size : Nat)
    (pos : Int) : List Nat × Int :=
  (writeBytesAt buffer pos.toNat (uintToBytes data size), pos + size)

end ByteArrayUtils

namespace BufferWithExtendableBuffer

/-- `writeUintAndAdvancePosition(data, size, pos)`: returns the C++ `bool`
result, the new object state, and the final value of the in-out `pos`. -/
def writeUintAndAdvancePosition (b : BufferWithExtendableBuffer) (cfg : Config)
    (data : Nat) (size : Int) (pos : Int) :
    Bool × BufferWithExtendableBuffer × Int :=
  if ¬(1 ≤ size ∧ size ≤ 4) then
    -- AKLOGI diagnostic and ASSERT(false), then return false.
    (false, b, pos)
  else
    match b.checkAndPrepareWriting cfg pos size with
    | none => (false, b, pos)
    | some b1 =>
        if b1.isInAdditionalBuffer pos then
          let r := ByteArrayUtils.writeUintAndAdvancePosition b1.mAdditionalBuffer
            data size.toNat (pos - b1.getOriginalBufferSize)
          (true, { b1 with mAdditionalBuffer := r.1 }, r.2 + b1.getOriginalBufferSize)
        else
          let r := ByteArrayUtils.writeUintAndAdvancePosition b1.mOriginalBuffer
            data size.toNat pos
          (true, { b1 with mOriginalBuffer := r.1 }, r.2)

end BufferWithExtendableBuffer

/-- The states reachable from construction by `writeUintAndAdvancePosition`
calls (with arbitrary arguments, successful or not). -/
inductive Reachable (cfg : Config) : BufferWithExtendableBuffer → Prop where
  | init (originalBuffer : List Nat) :
      Reachable cfg (mkBufferWithExtendableBuffer cfg originalBuffer)
  | step (b : BufferWithExtendableBuffer) (data : Nat) (size pos : Int)
      (h : Reachable cfg b) :
      Reachable cfg (b.writeUintAndAdvancePosition cfg data size pos).2.1

theorem uintToBytes_length (data size : Nat) : (uintToBytes data size).length = size := by
  simp [uintToBytes]

theorem writeBytesAt_length_congr (buf x y : List Nat) (p : Nat)
    (h : x.length = y.length) :
    (writeBytesAt buf p x).length = (writeBytesAt buf p y).length := by
  simp [writeBytesAt, h]

theorem writeBytesAt_length (buf bytes : List Nat) (p : Nat)
    (h : p + bytes.length ≤ buf.length) :
    (writeBytesAt buf p bytes).length = buf.length := by
  simp [writeBytesAt]
  omega

namespace BufferWithExtendableBuffer

theorem checkAndPrepareWriting_eq (b : BufferWithExtendableBuffer) (cfg : Config)
    (pos size : Int) :
    b.checkAndPrepareWriting cfg pos size =
      if b.getOriginalBufferSize ≤ pos then
        if pos = b.mUsedAdditionalBufferSize then
          if pos + size > (b.mAdditionalBuffer.length : Int) then
            if b.mAdditionalBuffer.length + cfg.extendAdditionalBufferSizeStep >
                cfg.maxAdditionalBufferSize then
              none
            else
              some ⟨b.mOriginalBuffer,
                b.mAdditionalBuffer ++
                  List.replicate cfg.extendAdditionalBufferSizeStep 0,
                b.mUsedAdditionalBufferSize + size⟩
          else
            some ⟨b.mOriginalBuffer, b.mAdditionalBuffer,
              b.mUsedAdditionalBufferSize + size⟩
        else if pos + size ≥ b.mUsedAdditionalBufferSize then
          none
        else
          some b
      else
        if pos < 0 ∨ b.getOriginalBufferSize < pos + size then none
        else some b := by
  unfold checkAndPrepareWriting extendBuffer isInAdditionalBuffer
  simp only [decide_eq_true_eq]
  split_ifs <;> rfl

theorem writeUint_eq (b : BufferWithExtendableBuffer) (cfg : Config)
    (data : Nat) (size pos : Int) :
    b.writeUintAndAdvancePosition cfg data size pos =
      if ¬(1 ≤ size ∧ size ≤ 4) then
        (false, b, pos)
      else
        if b.getOriginalBufferSize ≤ pos then
          if pos = b.mUsedAdditionalBufferSize then
            if pos + size > (b.mAdditionalBuffer.length : Int) then
              if b.mAdditionalBuffer.length + cfg.extendAdditionalBufferSizeStep >
                  cfg.maxAdditionalBufferSize then
                (false, b, pos)
              else
                (true,
                  ⟨b.mOriginalBuffer,
                    writeBytesAt
                      (b.mAdditionalBuffer ++
                        List.replicate cfg.extendAdditionalBufferSizeStep 0)
                      (pos - b.getOriginalBufferSize).toNat
                      (uintToBytes data size.toNat),
                    b.mUsedAdditionalBufferSize + size⟩,
                  pos + size)
            else
              (true,
                ⟨b.mOriginalBuffer,
                  writeBytesAt b.mAdditionalBuffer
                    (pos - b.getOriginalBufferSize).toNat
                    (uintToBytes data size.toNat),
                  b.mUsedAdditionalBufferSize + size⟩,
                pos + size)
          else if pos + size ≥ b.mUsedAdditionalBufferSize then
            (false, b, pos)
          else
            (true,
              ⟨b.mOriginalBuffer,
                writeBytesAt b.mAdditionalBuffer
                  (pos - b.getOriginalBufferSize).toNat
                  (uintToBytes data size.toNat),
                b.mUsedAdditionalBufferSize⟩,
              pos + size)
        else
          if pos < 0 ∨ b.getOriginalBufferSize < pos + size then
            (false, b, pos)
          else
            (true,
              ⟨writeBytesAt b.mOriginalBuffer pos.toNat (uintToBytes data size.toNat),
                b.mAdditionalBuffer, b.mUsedAdditionalBufferSize⟩,
              pos + size) := by
  unfold writeUintAndAdvancePosition
  rw [checkAndPrepareWriting_eq]
  unfold isInAdditionalBuffer ByteArrayUtils.writeUintAndAdvancePosition
  simp only [decide_eq_true_eq]
  split_ifs <;>
    simp_all [getOriginalBufferSize, Prod.ext_iff] <;>
    try omega
  rw [if_neg (by omega)]
  simp_all
  omega

end BufferWithExtendableBuffer


theorem writeBytesAt_length_eq (buf bytes : List Nat) (p : Nat) :
    (writeBytesAt buf p bytes).length =
      min p buf.length + bytes.length + (buf.length - (p + bytes.length)) := by
  simp [writeBytesAt]
  omega

namespace BufferWithExtendableBuffer

theorem writeUint_origUsed (cfg : Config) (b : BufferWithExtendableBuffer)
    (data : Nat) (size pos : Int)
    (hP : b.mOriginalBuffer.length = 0 ∨ b.mUsedAdditionalBufferSize = 0) :
    ((b.writeUintAndAdvancePosition cfg data size pos).2.1).mOriginalBuffer.length = 0 ∨
    ((b.writeUintAndAdvancePosition cfg data size pos).2.1).mUsedAdditionalBufferSize = 0 := by
  rcases hP with h | h <;>
    rw [writeUint_eq] <;>
    split_ifs <;>
    simp_all [getOriginalBufferSize, writeBytesAt_length_eq, uintToBytes_length] <;>
    omega

theorem writeUint_used_mono (cfg : Config) (b : BufferWithExtendableBuffer)
    (data : Nat) (size pos : Int) :
    b.mUsedAdditionalBufferSize ≤
      ((b.writeUintAndAdvancePosition cfg data size pos).2.1).mUsedAdditionalBufferSize := by
  rw [writeUint_eq]
  split_ifs <;> simp_all <;> omega

theorem writeUint_used_le_cap (cfg : Config) (b : BufferWithExtendableBuffer)
    (data : Nat) (size pos : Int)
    (hstep : 4 ≤ cfg.extendAdditionalBufferSizeStep)
    (hQ : 0 ≤ b.mUsedAdditionalBufferSize ∧
      b.mUsedAdditionalBufferSize ≤ (b.mAdditionalBuffer.length : Int)) :
    (0 ≤ ((b.writeUintAndAdvancePosition cfg data size pos).2.1).mUsedAdditionalBufferSize ∧
      ((b.writeUintAndAdvancePosition cfg data size pos).2.1).mUsedAdditionalBufferSize ≤
        (((b.writeUintAndAdvancePosition cfg data size pos).2.1).mAdditionalBuffer.length : Int)) ∧
    (b.mAdditionalBuffer.length ≤ cfg.maxAdditionalBufferSize →
      ((b.writeUintAndAdvancePosition cfg data size pos).2.1).mAdditionalBuffer.length ≤
        cfg.maxAdditionalBufferSize) := by
  rw [writeUint_eq]
  split_ifs <;>
    simp_all [getOriginalBufferSize, writeBytesAt_length_eq, uintToBytes_length] <;>
    omega

end BufferWithExtendableBuffer

theorem reachable_origUsed (cfg : Config) (b : BufferWithExtendableBuffer)
    (h : Reachable cfg b) :
    b.mOriginalBuffer.length = 0 ∨ b.mUsedAdditionalBufferSize = 0 := by
  induction h with
  | init originalBuffer => simp [mkBufferWithExtendableBuffer]
  | step b data size pos h ih =>
      exact BufferWithExtendableBuffer.writeUint_origUsed cfg b data size pos ih

theorem reachable_used_le_cap (cfg : Config) (b : BufferWithExtendableBuffer)
    (hstep : 4 ≤ cfg.extendAdditionalBufferSizeStep) (h : Reachable cfg b) :
    0 ≤ b.mUsedAdditionalBufferSize ∧
      b.mUsedAdditionalBufferSize ≤ (b.mAdditionalBuffer.length : Int) := by
  induction h with
  | init originalBuffer => simp [mkBufferWithExtendableBuffer]
  | step b data size pos h ih =>
      exact (BufferWithExtendableBuffer.writeUint_used_le_cap cfg b data size pos hstep ih).1

theorem reachable_cap_le_max (cfg : Config) (b : BufferWithExtendableBuffer)
    (hstep : 4 ≤ cfg.extendAdditionalBufferSizeStep)
    (hinit : cfg.initialAdditionalBufferSize ≤ cfg.maxAdditionalBufferSize)
    (h : Reachable cfg b) :
    b.mAdditionalBuffer.length ≤ cfg.maxAdditionalBufferSize := by
  induction h with
  | init originalBuffer => simp [mkBufferWithExtendableBuffer, hinit]
  | step b data size pos h ih =>
      exact (BufferWithExtendableBuffer.writeUint_used_le_cap cfg b data size pos hstep
        (reachable_used_le_cap cfg b hstep h)).2 ih


/-- C6: calling `writeUintAndAdvancePosition` with a byte width outside
`[1, 4]` returns `false` immediately and mutates nothing: the state and the
in-out position are returned exactly as they were, for every state,
position, and value.  (The accompanying `AKLOGI`/`ASSERT` diagnostic is a
logging side effect outside the state model.) -/
theorem claim6_invalid_width_rejected (cfg : Config) (b : BufferWithExtendableBuffer)
    (data : Nat) (size pos : Int) (h : ¬(1 ≤ size ∧ size ≤ 4)) :
    b.writeUintAndAdvancePosition cfg data size pos = (false, b, pos) := by
  unfold BufferWithExtendableBuffer.writeUintAndAdvancePosition
  simp [h]

/-- Witness for C6 at a concrete input: width 5 on a small buffer. -/
theorem claim6_invalid_width_rejected_witness :
    ¬(1 ≤ (5 : Int) ∧ (5 : Int) ≤ 4) ∧
    (mkBufferWithExtendableBuffer ⟨8, 16, 8⟩ [0, 0]).writeUintAndAdvancePosition
        ⟨8, 16, 8⟩ 3 5 0 =
      (false, mkBufferWithExtendableBuffer ⟨8, 16, 8⟩ [0, 0], 0) :=
  ⟨by decide,
    claim6_invalid_width_rejected ⟨8, 16, 8⟩ (mkBufferWithExtendableBuffer ⟨8, 16, 8⟩ [0, 0])
      3 5 0 (by decide)⟩

/-- C3: whenever `writeUintAndAdvancePosition` returns `false` — for any
reason — the whole call leaves the observable state untouched: the returned
state is exactly the input state (all bytes of both regions, the additional
region capacity, `usedAdditionalSize`, hence `tailPosition()`), and the
in-out position is exactly the input position. -/
theorem claim3_failure_is_atomic (cfg : Config) (b : BufferWithExtendableBuffer)
    (data : Nat) (size pos : Int)
    (h : (b.writeUintAndAdvancePosition cfg data size pos).1 = false) :
    b.writeUintAndAdvancePosition cfg data size pos = (false, b, pos) := by
  rw [BufferWithExtendableBuffer.writeUint_eq] at h ⊢
  split_ifs at h ⊢ <;> simp_all

/-- Witness for C3 at a concrete input: a refused out-of-bounds write in
the additional region. -/
theorem claim3_failure_is_atomic_witness :
    ((mkBufferWithExtendableBuffer ⟨4, 6, 4⟩ []).writeUintAndAdvancePosition
        ⟨4, 6, 4⟩ 7 4 2).1 = false ∧
    (mkBufferWithExtendableBuffer ⟨4, 6, 4⟩ []).writeUintAndAdvancePosition
        ⟨4, 6, 4⟩ 7 4 2 =
      (false, mkBufferWithExtendableBuffer ⟨4, 6, 4⟩ [], 2) :=
  ⟨by decide,
    claim3_failure_is_atomic ⟨4, 6, 4⟩ (mkBufferWithExtendableBuffer ⟨4, 6, 4⟩ [])
      7 4 2 (by decide)⟩

/-- C1 failing-input evaluation: with an original region of 10 zero bytes
(initial additional capacity 16, maximum 64, growth step 16),
`tailPosition()` is 10 and the new `usedAdditionalSize` (0 + 4 = 4) is well
within the maximum capacity ceiling, yet the 4-byte append at position 10 =
`tailPosition()` returns `false` and leaves the state and position
unchanged — `checkAndPrepareWriting` compares the logical position against
`mUsedAdditionalBufferSize` without subtracting the original-buffer size,
so the append the claim (and the header comment) promises is refused. -/
theorem claim1_append_at_tail_refused_eval :
    (mkBufferWithExtendableBuffer ⟨16, 64, 16⟩ (List.replicate 10 0)).getTailPosition = 10 ∧
    (mkBufferWithExtendableBuffer ⟨16, 64, 16⟩
          (List.replicate 10 0)).mUsedAdditionalBufferSize + 4 ≤
      ((⟨16, 64, 16⟩ : Config).maxAdditionalBufferSize : Int) ∧
    (mkBufferWithExtendableBuffer ⟨16, 64, 16⟩ (List.replicate 10 0)).writeUintAndAdvancePosition
        ⟨16, 64, 16⟩ 0x01020304 4 10 =
      (false, mkBufferWithExtendableBuffer ⟨16, 64, 16⟩ (List.replicate 10 0), 10) := by
  refine ⟨by decide, by decide, by decide⟩

/-- C10: the data value never influences whether or where a write is
permitted: two calls from the same state with the same position and width
but different values return the same success flag, the same
`usedAdditionalSize`, the same additional-region capacity, and the same
final in-out position. -/
theorem claim10_value_noninterference (cfg : Config) (b : BufferWithExtendableBuffer)
    (d1 d2 : Nat) (size pos : Int) :
    (b.writeUintAndAdvancePosition cfg d1 size pos).1 =
      (b.writeUintAndAdvancePosition cfg d2 size pos).1 ∧
    (b.writeUintAndAdvancePosition cfg d1 size pos).2.1.mUsedAdditionalBufferSize =
      (b.writeUintAndAdvancePosition cfg d2 size pos).2.1.mUsedAdditionalBufferSize ∧
    (b.writeUintAndAdvancePosition cfg d1 size pos).2.1.mAdditionalBuffer.length =
      (b.writeUintAndAdvancePosition cfg d2 size pos).2.1.mAdditionalBuffer.length ∧
    (b.writeUintAndAdvancePosition cfg d1 size pos).2.2 =
      (b.writeUintAndAdvancePosition cfg d2 size pos).2.2 := by
  rw [BufferWithExtendableBuffer.writeUint_eq b cfg d1 size pos,
    BufferWithExtendableBuffer.writeUint_eq b cfg d2 size pos]
  split_ifs <;>
    refine ⟨rfl, rfl, ?_, rfl⟩ <;>
    first
      | rfl
      | exact writeBytesAt_length_congr _ _ _ _ (by simp [uintToBytes_length])


/-- C4: for a width in `[1, 4]` and a position in the original region
(`pos < originalSize`), the write succeeds exactly when `0 ≤ pos` and
`pos + size ≤ originalSize`; and no call ever changes the original
region length, so its logical length is always exactly `originalSize`. -/
theorem claim4_original_region_bounds (cfg : Config) (b : BufferWithExtendableBuffer)
    (data : Nat) (size pos : Int) (h1 : 1 ≤ size) (h2 : size ≤ 4)
    (h3 : pos < b.getOriginalBufferSize) :
    ((b.writeUintAndAdvancePosition cfg data size pos).1 = true ↔
      0 ≤ pos ∧ pos + size ≤ b.getOriginalBufferSize) ∧
    (b.writeUintAndAdvancePosition cfg data size pos).2.1.mOriginalBuffer.length =
      b.mOriginalBuffer.length := by
  rw [BufferWithExtendableBuffer.writeUint_eq]
  split_ifs <;>
    simp_all [BufferWithExtendableBuffer.getOriginalBufferSize, writeBytesAt_length_eq,
      uintToBytes_length] <;>
    omega

/-- Witness for C4 at a concrete input: a 2-byte write at position 3 of a
5-byte original region succeeds and keeps the region length 5. -/
theorem claim4_original_region_bounds_witness :
    1 ≤ (2 : Int) ∧ (2 : Int) ≤ 4 ∧
    (3 : Int) < (mkBufferWithExtendableBuffer ⟨8, 16, 8⟩
      [0, 0, 0, 0, 0]).getOriginalBufferSize ∧
    ((((mkBufferWithExtendableBuffer ⟨8, 16, 8⟩
            [0, 0, 0, 0, 0]).writeUintAndAdvancePosition ⟨8, 16, 8⟩ 0xABCD 2 3).1 = true ↔
        0 ≤ (3 : Int) ∧ (3 : Int) + 2 ≤ (mkBufferWithExtendableBuffer ⟨8, 16, 8⟩
          [0, 0, 0, 0, 0]).getOriginalBufferSize) ∧
      ((mkBufferWithExtendableBuffer ⟨8, 16, 8⟩
            [0, 0, 0, 0, 0]).writeUintAndAdvancePosition
          ⟨8, 16, 8⟩ 0xABCD 2 3).2.1.mOriginalBuffer.length =
        (mkBufferWithExtendableBuffer ⟨8, 16, 8⟩ [0, 0, 0, 0, 0]).mOriginalBuffer.length) :=
  ⟨by decide, by decide, by decide,
    claim4_original_region_bounds ⟨8, 16, 8⟩
      (mkBufferWithExtendableBuffer ⟨8, 16, 8⟩ [0, 0, 0, 0, 0]) 0xABCD 2 3
      (by decide) (by decide) (by decide)⟩

/-- C9: every successful write touches exactly one physical region.  If the
position resolves to the additional region, the original region bytes are
returned unchanged; if it resolves to the original region, the additional
region bytes (hence its capacity) and `usedAdditionalBufferSize` are
returned unchanged. -/
theorem claim9_region_isolation (cfg : Config) (b : BufferWithExtendableBuffer)
    (data : Nat) (size pos : Int)
    (h : (b.writeUintAndAdvancePosition cfg data size pos).1 = true) :
    (b.isInAdditionalBuffer pos = true →
      (b.writeUintAndAdvancePosition cfg data size pos).2.1.mOriginalBuffer =
        b.mOriginalBuffer) ∧
    (b.isInAdditionalBuffer pos = false →
      (b.writeUintAndAdvancePosition cfg data size pos).2.1.mAdditionalBuffer =
          b.mAdditionalBuffer ∧
        (b.writeUintAndAdvancePosition cfg data size pos).2.1.mUsedAdditionalBufferSize =
          b.mUsedAdditionalBufferSize) := by
  rw [BufferWithExtendableBuffer.writeUint_eq] at h ⊢
  simp only [BufferWithExtendableBuffer.isInAdditionalBuffer, decide_eq_true_eq,
    decide_eq_false_iff_not]
  split_ifs at h ⊢ <;> simp_all

/-- Witness for C9 at a concrete input: a successful 2-byte append in the
additional region of a buffer with empty original region. -/
theorem claim9_region_isolation_witness :
    ((mkBufferWithExtendableBuffer ⟨8, 16, 8⟩ []).writeUintAndAdvancePosition
        ⟨8, 16, 8⟩ 0x0102 2 0).1 = true ∧
    (((mkBufferWithExtendableBuffer ⟨8, 16, 8⟩ []).isInAdditionalBuffer 0 = true →
        ((mkBufferWithExtendableBuffer ⟨8, 16, 8⟩ []).writeUintAndAdvancePosition
            ⟨8, 16, 8⟩ 0x0102 2 0).2.1.mOriginalBuffer =
          (mkBufferWithExtendableBuffer ⟨8, 16, 8⟩ []).mOriginalBuffer) ∧
      ((mkBufferWithExtendableBuffer ⟨8, 16, 8⟩ []).isInAdditionalBuffer 0 = false →
        ((mkBufferWithExtendableBuffer ⟨8, 16, 8⟩ []).writeUintAndAdvancePosition
              ⟨8, 16, 8⟩ 0x0102 2 0).2.1.mAdditionalBuffer =
            (mkBufferWithExtendableBuffer ⟨8, 16, 8⟩ []).mAdditionalBuffer ∧
          ((mkBufferWithExtendableBuffer ⟨8, 16, 8⟩ []).writeUintAndAdvancePosition
              ⟨8, 16, 8⟩ 0x0102 2 0).2.1.mUsedAdditionalBufferSize =
            (mkBufferWithExtendableBuffer ⟨8, 16, 8⟩ []).mUsedAdditionalBufferSize)) :=
  ⟨by decide,
    claim9_region_isolation ⟨8, 16, 8⟩ (mkBufferWithExtendableBuffer ⟨8, 16, 8⟩ [])
      0x0102 2 0 (by decide)⟩


/-- C2: in any reachable state, a write of width `size` in `[1, 4]` at a
position in the additional region whose end stays strictly inside the
committed region (`pos + size < tailPosition()`, so `pos` is a
previously-appended position) succeeds as an overwrite, leaves
`usedAdditionalBufferSize` unchanged, and leaves `tailPosition()`
unchanged. -/
theorem claim2_committed_overwrite_succeeds (cfg : Config) (b : BufferWithExtendableBuffer)
    (data : Nat) (size pos : Int) (hb : Reachable cfg b)
    (h1 : 1 ≤ size) (h2 : size ≤ 4)
    (hpos : b.getOriginalBufferSize ≤ pos)
    (hin : pos + size < b.getTailPosition) :
    (b.writeUintAndAdvancePosition cfg data size pos).1 = true ∧
    (b.writeUintAndAdvancePosition cfg data size pos).2.1.mUsedAdditionalBufferSize =
      b.mUsedAdditionalBufferSize ∧
    (b.writeUintAndAdvancePosition cfg data size pos).2.1.getTailPosition =
      b.getTailPosition := by
  have hPa : (b.mOriginalBuffer.length : Int) = 0 ∨ b.mUsedAdditionalBufferSize = 0 := by
    rcases reachable_origUsed cfg b hb with h | h
    · exact Or.inl (by exact_mod_cast h)
    · exact Or.inr h
  rw [BufferWithExtendableBuffer.writeUint_eq]
  simp only [BufferWithExtendableBuffer.getOriginalBufferSize,
    BufferWithExtendableBuffer.getTailPosition] at hpos hin ⊢
  split_ifs <;>
    first
      | exact ⟨rfl, rfl, rfl⟩
      | (exfalso; omega)

/-- Witness for C2 at a concrete input: after appending two 2-byte values
(tail = 4), the first value at position 0 is overwritten in place. -/
theorem claim2_committed_overwrite_succeeds_witness :
    1 ≤ (2 : Int) ∧ (2 : Int) ≤ 4 ∧
    (((mkBufferWithExtendableBuffer ⟨8, 16, 8⟩ []).writeUintAndAdvancePosition
          ⟨8, 16, 8⟩ 0x0102 2 0).2.1.writeUintAndAdvancePosition
        ⟨8, 16, 8⟩ 0x0304 2 2).2.1.getOriginalBufferSize ≤ (0 : Int) ∧
    (0 : Int) + 2 <
      (((mkBufferWithExtendableBuffer ⟨8, 16, 8⟩ []).writeUintAndAdvancePosition
            ⟨8, 16, 8⟩ 0x0102 2 0).2.1.writeUintAndAdvancePosition
          ⟨8, 16, 8⟩ 0x0304 2 2).2.1.getTailPosition ∧
    ((((mkBufferWithExtendableBuffer ⟨8, 16, 8⟩ []).writeUintAndAdvancePosition
            ⟨8, 16, 8⟩ 0x0102 2 0).2.1.writeUintAndAdvancePosition
          ⟨8, 16, 8⟩ 0x0304 2 2).2.1.writeUintAndAdvancePosition
        ⟨8, 16, 8⟩ 0xFFFF 2 0).1 = true :=
  ⟨by decide, by decide, by decide, by decide,
    (claim2_committed_overwrite_succeeds ⟨8, 16, 8⟩
      (((mkBufferWithExtendableBuffer ⟨8, 16, 8⟩ []).writeUintAndAdvancePosition
            ⟨8, 16, 8⟩ 0x0102 2 0).2.1.writeUintAndAdvancePosition
          ⟨8, 16, 8⟩ 0x0304 2 2).2.1
      0xFFFF 2 0
      (Reachable.step _ 0x0304 2 2 (Reachable.step _ 0x0102 2 0 (Reachable.init [])))
      (by decide) (by decide) (by decide) (by decide)).1⟩

/-- C5: in any reachable state, a write in the additional region at a
position other than the append position, whose end reaches or exceeds
`usedAdditionalBufferSize` (landing exactly on it included, since the
boundary check uses `>=`), is refused with no state change. -/
theorem claim5_exact_fit_overwrite_refused (cfg : Config) (b : BufferWithExtendableBuffer)
    (data : Nat) (size pos : Int) (hb : Reachable cfg b)
    (h1 : 1 ≤ size) (h2 : size ≤ 4)
    (hpos : b.getOriginalBufferSize ≤ pos)
    (hne : pos ≠ b.getTailPosition)
    (hend : b.mUsedAdditionalBufferSize ≤ pos + size) :
    b.writeUintAndAdvancePosition cfg data size pos = (false, b, pos) := by
  have hPa : (b.mOriginalBuffer.length : Int) = 0 ∨ b.mUsedAdditionalBufferSize = 0 := by
    rcases reachable_origUsed cfg b hb with h | h
    · exact Or.inl (by exact_mod_cast h)
    · exact Or.inr h
  rw [BufferWithExtendableBuffer.writeUint_eq]
  simp only [BufferWithExtendableBuffer.getOriginalBufferSize,
    BufferWithExtendableBuffer.getTailPosition] at hpos hne hend ⊢
  split_ifs <;>
    first
      | rfl
      | (exfalso; omega)

/-- Witness for C5 at a concrete input: after appending two 2-byte values
(tail = 4), a 2-byte write at position 2 ends exactly at
`usedAdditionalBufferSize` = 4 and is refused. -/
theorem claim5_exact_fit_overwrite_refused_witness :
    1 ≤ (2 : Int) ∧ (2 : Int) ≤ 4 ∧
    (((mkBufferWithExtendableBuffer ⟨8, 16, 8⟩ []).writeUintAndAdvancePosition
          ⟨8, 16, 8⟩ 0x0102 2 0).2.1.writeUintAndAdvancePosition
        ⟨8, 16, 8⟩ 0x0304 2 2).2.1.getOriginalBufferSize ≤ (2 : Int) ∧
    (2 : Int) ≠
      (((mkBufferWithExtendableBuffer ⟨8, 16, 8⟩ []).writeUintAndAdvancePosition
            ⟨8, 16, 8⟩ 0x0102 2 0).2.1.writeUintAndAdvancePosition
          ⟨8, 16, 8⟩ 0x0304 2 2).2.1.getTailPosition ∧
    (((mkBufferWithExtendableBuffer ⟨8, 16, 8⟩ []).writeUintAndAdvancePosition
          ⟨8, 16, 8⟩ 0x0102 2 0).2.1.writeUintAndAdvancePosition
        ⟨8, 16, 8⟩ 0x0304 2 2).2.1.mUsedAdditionalBufferSize ≤ (2 : Int) + 2 ∧
    (((mkBufferWithExtendableBuffer ⟨8, 16, 8⟩ []).writeUintAndAdvancePosition
            ⟨8, 16, 8⟩ 0x0102 2 0).2.1.writeUintAndAdvancePosition
          ⟨8, 16, 8⟩ 0x0304 2 2).2.1.writeUintAndAdvancePosition
        ⟨8, 16, 8⟩ 0xAAAA 2 2 =
      (false,
        (((mkBufferWithExtendableBuffer ⟨8, 16, 8⟩ []).writeUintAndAdvancePosition
              ⟨8, 16, 8⟩ 0x0102 2 0).2.1.writeUintAndAdvancePosition
            ⟨8, 16, 8⟩ 0x0304 2 2).2.1, 2) :=
  ⟨by decide, by decide, by decide, by decide, by decide,
    claim5_exact_fit_overwrite_refused ⟨8, 16, 8⟩
      (((mkBufferWithExtendableBuffer ⟨8, 16, 8⟩ []).writeUintAndAdvancePosition
            ⟨8, 16, 8⟩ 0x0102 2 0).2.1.writeUintAndAdvancePosition
          ⟨8, 16, 8⟩ 0x0304 2 2).2.1
      0xAAAA 2 2
      (Reachable.step _ 0x0304 2 2 (Reachable.step _ 0x0102 2 0 (Reachable.init [])))
      (by decide) (by decide) (by decide) (by decide) (by decide)⟩

/-- C8: in any reachable state (growth step at least the largest write
width), `0 ≤ usedAdditionalBufferSize ≤ capacity(additionalBuffer)` holds —
it holds after construction and is preserved by every call — and
`usedAdditionalBufferSize` is monotonically non-decreasing across calls. -/
theorem claim8_state_invariant (cfg : Config) (b : BufferWithExtendableBuffer)
    (hstep : 4 ≤ cfg.extendAdditionalBufferSizeStep) (hb : Reachable cfg b) :
    (0 ≤ b.mUsedAdditionalBufferSize ∧
      b.mUsedAdditionalBufferSize ≤ (b.mAdditionalBuffer.length : Int)) ∧
    ∀ (data : Nat) (size pos : Int),
      b.mUsedAdditionalBufferSize ≤
        (b.writeUintAndAdvancePosition cfg data size pos).2.1.mUsedAdditionalBufferSize :=
  ⟨reachable_used_le_cap cfg b hstep hb,
    fun data size pos => BufferWithExtendableBuffer.writeUint_used_mono cfg b data size pos⟩

/-- Witness for C8 at a concrete input: the freshly constructed empty
buffer under a configuration with step 8. -/
theorem claim8_state_invariant_witness :
    4 ≤ (⟨8, 16, 8⟩ : Config).extendAdditionalBufferSizeStep ∧
    Reachable ⟨8, 16, 8⟩ (mkBufferWithExtendableBuffer ⟨8, 16, 8⟩ [0, 0]) ∧
    ((0 ≤ (mkBufferWithExtendableBuffer ⟨8, 16, 8⟩ [0, 0]).mUsedAdditionalBufferSize ∧
        (mkBufferWithExtendableBuffer ⟨8, 16, 8⟩ [0, 0]).mUsedAdditionalBufferSize ≤
          ((mkBufferWithExtendableBuffer ⟨8, 16, 8⟩ [0, 0]).mAdditionalBuffer.length : Int)) ∧
      ∀ (data : Nat) (size pos : Int),
        (mkBufferWithExtendableBuffer ⟨8, 16, 8⟩ [0, 0]).mUsedAdditionalBufferSize ≤
          ((mkBufferWithExtendableBuffer ⟨8, 16, 8⟩ [0, 0]).writeUintAndAdvancePosition
              ⟨8, 16, 8⟩ data size pos).2.1.mUsedAdditionalBufferSize) :=
  ⟨by decide, Reachable.init [0, 0],
    claim8_state_invariant ⟨8, 16, 8⟩ (mkBufferWithExtendableBuffer ⟨8, 16, 8⟩ [0, 0])
      (by decide) (Reachable.init [0, 0])⟩


/-- C7: under the build-time constants (growth step at least the largest
write width, initial capacity within the ceiling), for an append that
needs growth (`pos + size` exceeds the current capacity), the write is
granted only if the grown capacity `capacity + step` stays within
`maxAdditionalBufferSize`; and an append that would push
`usedAdditionalBufferSize` beyond the ceiling fails with the state —
capacity and `tailPosition()` included — and position returned unchanged. -/
theorem claim7_capacity_ceiling (cfg : Config) (b : BufferWithExtendableBuffer)
    (data : Nat) (size pos : Int)
    (hstep : 4 ≤ cfg.extendAdditionalBufferSizeStep)
    (hinit : cfg.initialAdditionalBufferSize ≤ cfg.maxAdditionalBufferSize)
    (hb : Reachable cfg b) (h1 : 1 ≤ size) (h2 : size ≤ 4)
    (hpos : b.getOriginalBufferSize ≤ pos)
    (happ : pos = b.mUsedAdditionalBufferSize) :
    ((b.mAdditionalBuffer.length : Int) < pos + size →
      (b.writeUintAndAdvancePosition cfg data size pos).1 = true →
      b.mAdditionalBuffer.length + cfg.extendAdditionalBufferSizeStep ≤
        cfg.maxAdditionalBufferSize) ∧
    ((cfg.maxAdditionalBufferSize : Int) < b.mUsedAdditionalBufferSize + size →
      b.writeUintAndAdvancePosition cfg data size pos = (false, b, pos)) := by
  have hQ := reachable_used_le_cap cfg b hstep hb
  have hM := reachable_cap_le_max cfg b hstep hinit hb
  rw [BufferWithExtendableBuffer.writeUint_eq]
  simp only [BufferWithExtendableBuffer.getOriginalBufferSize] at hpos ⊢
  split_ifs <;>
    refine ⟨fun hg hr => ?_, fun hm => ?_⟩ <;>
    first
      | rfl
      | omega
      | (exfalso; omega)
      | exact hr.elim


/-- Witness for C7 at a concrete input: initial capacity 4, ceiling 6,
step 4; after one 4-byte append the buffer is full (used = capacity = 4),
and the next 4-byte append at position 4 would need a grown capacity of 8,
beyond the ceiling. -/
theorem claim7_capacity_ceiling_witness :
    4 ≤ (⟨4, 6, 4⟩ : Config).extendAdditionalBufferSizeStep ∧
    (⟨4, 6, 4⟩ : Config).initialAdditionalBufferSize ≤
      (⟨4, 6, 4⟩ : Config).maxAdditionalBufferSize ∧
    1 ≤ (4 : Int) ∧ (4 : Int) ≤ 4 ∧
    ((mkBufferWithExtendableBuffer ⟨4, 6, 4⟩ []).writeUintAndAdvancePosition
        ⟨4, 6, 4⟩ 7 4 0).2.1.getOriginalBufferSize ≤ (4 : Int) ∧
    (4 : Int) = ((mkBufferWithExtendableBuffer ⟨4, 6, 4⟩ []).writeUintAndAdvancePosition
        ⟨4, 6, 4⟩ 7 4 0).2.1.mUsedAdditionalBufferSize ∧
    (((((mkBufferWithExtendableBuffer ⟨4, 6, 4⟩ []).writeUintAndAdvancePosition
            ⟨4, 6, 4⟩ 7 4 0).2.1.mAdditionalBuffer.length : Int) < (4 : Int) + 4 →
        (((mkBufferWithExtendableBuffer ⟨4, 6, 4⟩ []).writeUintAndAdvancePosition
              ⟨4, 6, 4⟩ 7 4 0).2.1.writeUintAndAdvancePosition ⟨4, 6, 4⟩ 9 4 4).1 = true →
        ((mkBufferWithExtendableBuffer ⟨4, 6, 4⟩ []).writeUintAndAdvancePosition
              ⟨4, 6, 4⟩ 7 4 0).2.1.mAdditionalBuffer.length +
            (⟨4, 6, 4⟩ : Config).extendAdditionalBufferSizeStep ≤
          (⟨4, 6, 4⟩ : Config).maxAdditionalBufferSize) ∧
      (((⟨4, 6, 4⟩ : Config).maxAdditionalBufferSize : Int) <
          ((mkBufferWithExtendableBuffer ⟨4, 6, 4⟩ []).writeUintAndAdvancePosition
              ⟨4, 6, 4⟩ 7 4 0).2.1.mUsedAdditionalBufferSize + 4 →
        ((mkBufferWithExtendableBuffer ⟨4, 6, 4⟩ []).writeUintAndAdvancePosition
              ⟨4, 6, 4⟩ 7 4 0).2.1.writeUintAndAdvancePosition ⟨4, 6, 4⟩ 9 4 4 =
          (false,
            ((mkBufferWithExtendableBuffer ⟨4, 6, 4⟩ []).writeUintAndAdvancePosition
                ⟨4, 6, 4⟩ 7 4 0).2.1, 4))) :=
  ⟨by decide, by decide, by decide, by decide, by decide, by decide,
    claim7_capacity_ceiling ⟨4, 6, 4⟩
      ((mkBufferWithExtendableBuffer ⟨4, 6, 4⟩ []).writeUintAndAdvancePosition
          ⟨4, 6, 4⟩ 7 4 0).2.1
      9 4 4 (by decide) (by decide)
      (Reachable.step _ 7 4 0 (Reachable.init []))
      (by decide) (by decide) (by decide) (by decide)⟩

end LatinIme
